import Mathlib

/-!
Shallow embedding of the staySync room synchronization engine:
the Room data model (src/unnamed/part_006, the mongoose Room schema and its
methods), the socket music-control handler and leave-room handler
(src/backend/socket/socketHandlers.js), and the REST join/leave routes
(src/backend/routes/chat.js).  Identities, song ids and room ids are
modelled as naturals, timestamps as naturals, JS numbers used for
currentTime/volume/order as integers, and Math.random() as a rational
draw in [0,1).
-/

namespace StaySync

/-- Member role enum of the Room schema. -/
inductive Role
  | host
  | moderator
  | plainMember
deriving DecidableEq

/-- One entry of Room.members. -/
structure RMember where
  userId : Nat
  joinedAt : Nat
  role : Role
  isOnline : Bool
deriving DecidableEq

/-- One entry of Room.queue. -/
structure QueueItem where
  songId : Nat
  addedBy : Nat
  addedAt : Nat
  order : Int
deriving DecidableEq

/-- Room.currentTrack subdocument; schema defaults are the field defaults. -/
structure CurrentTrack where
  songId : Option Nat := none
  startedAt : Option Nat := none
  currentTime : Int := 0
  isPlaying : Bool := false
  playedBy : Option Nat := none
deriving DecidableEq

/-- Room.settings.repeatMode enum. -/
inductive RepeatMode
  | off
  | one
  | all
deriving DecidableEq

/-- Room.settings subdocument with its schema defaults. -/
structure RSettings where
  allowMembersToAddSongs : Bool := true
  allowMembersToSkip : Bool := false
  autoPlay : Bool := true
  shuffleMode : Bool := false
  repeatMode : RepeatMode := RepeatMode.off
  volume : Int := 80
deriving DecidableEq

/-- The Room document (fields relevant to the synchronization engine). -/
structure Room where
  hostId : Nat
  isPrivate : Bool := false
  passcode : Option String := none
  maxMembers : Nat := 50
  members : List RMember := []
  queue : List QueueItem := []
  currentTrack : CurrentTrack := {}
  settings : RSettings := {}
  isActive : Bool := true
deriving DecidableEq

/-- Mutate the first list element satisfying `p` (JS `Array.prototype.find`
followed by in-place mutation of the found object). -/
def updateFirst (p : α → Bool) (f : α → α) : List α → List α
  | [] => []
  | a :: as => if p a then f a :: as else a :: updateFirst p f as

/-- Insert into a sorted-by-`key` list keeping earlier-inserted equal keys
first; building block of the stable comparator sort. -/
def insertByKey (key : α → Int) (a : α) : List α → List α
  | [] => [a]
  | b :: bs => if key a ≤ key b then a :: b :: bs else b :: insertByKey key a bs

/-- Stable ascending sort by an integer key: the model of JS
`Array.prototype.sort` with a numeric comparator (ECMAScript requires the
sort to be stable and consistent with the comparator). -/
def sortByKey (key : α → Int) : List α → List α
  | [] => []
  | a :: as => insertByKey key a (sortByKey key as)

/-- Model of `Math.max(...list)` over a non-empty list (the empty case is
guarded at every call site). -/
def listMax : List Int → Int
  | [] => 0
  | a :: as => as.foldl max a

/-- JS `x || d` specialised to numbers: `0` is falsy, every other number is
truthy. -/
def jsNumOr (x d : Int) : Int := if x = 0 then d else x

/-- roomSchema.methods.addMember. -/
def Room.addMember (room : Room) (userId : Nat) (role : Role) (now : Nat) : Room :=
  if room.members.any (fun m => m.userId == userId) then
    { room with
        members := updateFirst (fun m => m.userId == userId)
          (fun m => { m with isOnline := true, joinedAt := now }) room.members }
  else
    { room with members := room.members ++ [⟨userId, now, role, true⟩] }

/-- roomSchema.methods.removeMember. -/
def Room.removeMember (room : Room) (userId : Nat) : Room :=
  { room with members := room.members.filter (fun m => m.userId != userId) }

/-- roomSchema.methods.updateMemberStatus. -/
def Room.updateMemberStatus (room : Room) (userId : Nat) (isOnline : Bool) : Room :=
  { room with
      members := updateFirst (fun m => m.userId == userId)
        (fun m => { m with isOnline := isOnline }) room.members }

/-- roomSchema.methods.addToQueue. -/
def Room.addToQueue (room : Room) (songId addedBy : Nat) (now : Nat) : Room :=
  let nextOrder : Int :=
    if room.queue.length > 0 then listMax (room.queue.map (fun item => item.order)) + 1
    else 1
  { room with queue := room.queue ++ [⟨songId, addedBy, now, nextOrder⟩] }

/-- roomSchema.methods.removeFromQueue. -/
def Room.removeFromQueue (room : Room) (songId : Nat) : Room :=
  { room with queue := room.queue.filter (fun item => item.songId != songId) }

/-- Index chosen by `Math.floor(Math.random() * queue.length)` for a random
draw `rand`. -/
def shuffleIndex (rand : ℚ) (n : Nat) : Nat := (Int.floor (rand * n)).toNat

/-- roomSchema.methods.getNextSong.  Returns the chosen item together with
the queue as it stands after the call: in the non-shuffle branch the JS
`sort` mutates `this.queue` in place. -/
def Room.getNextSongPick (room : Room) (rand : ℚ) : Option QueueItem × List QueueItem :=
  if room.queue.length = 0 then (none, room.queue)
  else if room.settings.shuffleMode then
    (room.queue.get? (shuffleIndex rand room.queue.length), room.queue)
  else
    let sorted := sortByKey (fun item => item.order) room.queue
    (sorted.head?, sorted)

/-- The broadcastData object assembled by handleMusicControl; absent JS
fields are `none`.  `currentTrack` in the `next` broadcast carries the
resolved song document, modelled by its id. -/
structure BroadcastData where
  action : Option String := none
  currentTrack : Option CurrentTrack := none
  currentTime : Option Int := none
  queue : Option (List QueueItem) := none
  volume : Option Int := none
  message : Option String := none
  timestamp : Option Nat := none
deriving DecidableEq

/-- Server-to-client socket emissions relevant to the engine. -/
inductive SEvent
  | errorMsg (msg : String)
  | musicUpdate (b : BroadcastData)
  | controlSuccess (action : String) (b : BroadcastData)
  | roomLeft
  | userLeft (userId : Nat)
deriving DecidableEq

/-- The five music control actions dispatched to handleMusicControl. -/
inductive MusicAction
  | play (songId : Option Nat) (currentTime : Int)
  | pause (currentTime : Int)
  | seek (currentTime : Int)
  | next
  | volume (v : Int)
deriving DecidableEq

/-- The JS action string of a control action. -/
def MusicAction.name : MusicAction → String
  | .play _ _ => "play"
  | .pause _ => "pause"
  | .seek _ => "seek"
  | .next => "next"
  | .volume _ => "volume"

/-- Result of one handleMusicControl call: the stored room document
afterwards (`none` when the lookup found nothing), the events emitted to
the invoking socket, the events broadcast to the other room members, and
the messageType tags of system chat messages saved. -/
structure ControlOutcome where
  room? : Option Room
  toInvoker : List SEvent
  toOthers : List SEvent
  sysMessages : List String
deriving DecidableEq

/-- The `switch (action)` body of handleMusicControl, followed by the
common `findByIdAndUpdate` / broadcast / acknowledgment tail; reached only
after the connection, room, membership and permission checks pass.  In the
`next` branch, when the chosen queue entry references a missing song the
code dereferences a null `song` after having saved the filtered queue: the
thrown error is caught by the `music-next` listener, which emits
"Failed to skip to next song". -/
def musicSwitch (songs : List Nat) (userId : Nat) (room : Room)
    (act : MusicAction) (now : Nat) (rand : ℚ) : ControlOutcome :=
  match act with
    | .play (some sid) ct =>
      if sid ∉ songs then
        ⟨some room, [.errorMsg "Song not found"], [], []⟩
      else
        let room₁ := room.removeFromQueue sid
        let room₂ := { room₁ with
          currentTrack := ⟨some sid, some now, jsNumOr ct 0, true, some userId⟩ }
        let b : BroadcastData :=
          { action := some "play", currentTrack := some room.currentTrack,
            currentTime := some (jsNumOr ct 0), timestamp := some now }
        ⟨some room₂, [.controlSuccess "play" b], [.musicUpdate b], ["song_play"]⟩
    | .play none ct =>
      let room₂ := { room with
        currentTrack := { room.currentTrack with
          isPlaying := true, startedAt := some now, currentTime := jsNumOr ct 0 } }
      let b : BroadcastData :=
        { action := some "play", currentTrack := some room.currentTrack,
          currentTime := some (jsNumOr ct 0), timestamp := some now }
      ⟨some room₂, [.controlSuccess "play" b], [.musicUpdate b], []⟩
    | .pause ct =>
      let room₂ := { room with
        currentTrack := { room.currentTrack with
          isPlaying := false, currentTime := jsNumOr ct 0 } }
      let b : BroadcastData :=
        { action := some "pause", currentTime := some (jsNumOr ct 0),
          timestamp := some now }
      ⟨some room₂, [.controlSuccess "pause" b], [.musicUpdate b], []⟩
    | .seek ct =>
      let room₂ := { room with
        currentTrack := { room.currentTrack with
          currentTime := ct, startedAt := some now } }
      let b : BroadcastData :=
        { action := some "seek", currentTime := some ct, timestamp := some now }
      ⟨some room₂, [.controlSuccess "seek" b], [.musicUpdate b], []⟩
    | .next =>
      let pick := room.getNextSongPick rand
      match pick.1 with
      | some chosen =>
        let room₁ := { room with
          queue := pick.2.filter (fun item => item.songId != chosen.songId) }
        if chosen.songId ∉ songs then
          ⟨some room₁, [.errorMsg "Failed to skip to next song"], [], []⟩
        else
          let track : CurrentTrack := ⟨some chosen.songId, some now, 0, true, some userId⟩
          let room₂ := { room₁ with currentTrack := track }
          let b : BroadcastData :=
            { action := some "next", currentTrack := some track,
              queue := some room₁.queue, timestamp := some now }
          ⟨some room₂, [.controlSuccess "next" b], [.musicUpdate b], ["song_play"]⟩
      | none =>
        let room₂ := { room with
          currentTrack := { room.currentTrack with
            songId := none, isPlaying := false, currentTime := 0 } }
        let b : BroadcastData :=
          { action := some "stop", message := some "Queue is empty",
            timestamp := some now }
        ⟨some room₂, [.controlSuccess "next" b], [.musicUpdate b], []⟩
    | .volume v =>
      if 0 ≤ v ∧ v ≤ 100 then
        let room₂ := { room with settings := { room.settings with volume := v } }
        let b : BroadcastData :=
          { action := some "volume", volume := some v, timestamp := some now }
        ⟨some room₂, [.controlSuccess "volume" b], [.musicUpdate b], []⟩
      else
        ⟨some room, [.controlSuccess "volume" {}], [.musicUpdate {}], []⟩

/-- handleMusicControl from socketHandlers.js.  `songs` is the set of song
ids present in the Song collection, `conn` the invoker's Connection
Registry binding (`activeConnections.get(userId).currentRoom`), `room?`
the result of `Room.findById(roomId)`, `now` the clock, and `rand` the
`Math.random()` draw used by getNextSong in shuffle mode. -/
def handleMusicControl (songs : List Nat) (userId : Nat) (conn : Option Nat)
    (roomId : Nat) (room? : Option Room) (act : MusicAction) (now : Nat)
    (rand : ℚ) : ControlOutcome :=
  if conn ≠ some roomId then
    ⟨room?, [.errorMsg "You must be in the room"], [], []⟩
  else
    match room? with
    | none => ⟨none, [.errorMsg "Room not found"], [], []⟩
    | some room =>
      if room.isActive = false then
        ⟨some room, [.errorMsg "Room not found"], [], []⟩
      else
        match room.members.find? (fun m => m.userId == userId) with
        | none => ⟨some room, [.errorMsg "Access denied"], [], []⟩
        | some mem =>
          if ¬ (mem.role = Role.host ∨ mem.role = Role.moderator ∨
                (room.settings.allowMembersToSkip = true ∧ act.name = "next")) ∧
              act.name ≠ "volume" then
            ⟨some room, [.errorMsg "Only host and moderators can control music"], [], []⟩
          else
            musicSwitch songs userId room act now rand

/-- Result of POST /api/rooms/:roomId/join.  `notFound` is the 404 from the
loadRoom middleware, `full` the 400 "Room is full", `badPasscode` the 400
"Invalid passcode"; the carried room is the stored room afterwards. -/
inductive JoinOutcome
  | notFound
  | alreadyMember (room : Room)
  | full (room : Room)
  | badPasscode (room : Room)
  | joined (room : Room)
deriving DecidableEq

/-- POST /api/rooms/:roomId/join from routes/chat.js: loadRoom, then
already-member check, then capacity check, then passcode check, then
addMember with role member. -/
def joinRoom (room? : Option Room) (userId : Nat) (passcode? : Option String)
    (now : Nat) : JoinOutcome :=
  match room? with
  | none => .notFound
  | some room =>
    if room.isActive = false then .notFound
    else if room.members.any (fun m => m.userId == userId) then
      .alreadyMember (room.updateMemberStatus userId true)
    else if room.members.length ≥ room.maxMembers then
      .full room
    else if room.isPrivate &&
        (match passcode?, room.passcode with
         | some p, some q => p != q
         | _, _ => true) then
      .badPasscode room
    else
      .joined (room.addMember userId Role.plainMember now)

/-- Result of POST /api/rooms/:roomId/leave.  `notFound` is the 404 from
loadRoom, `notMember` the 403 "Access denied. You must be a room member to
perform this action." from the requireRoomMember middleware (room
untouched); `ok` carries the stored room and whether the user_leave system
message was saved (only when the room is still active). -/
inductive LeaveOutcome
  | notFound
  | notMember (room : Room)
  | ok (room : Room) (messageEmitted : Bool)
deriving DecidableEq

/-- POST /api/rooms/:roomId/leave from routes/chat.js: if the leaver is the
host, either promote the head of the remaining members sorted by joinedAt
(a stable JS sort) or deactivate the room; then removeMember; the
user_leave system message is saved only if the room is still active. -/
def leaveRoom (room? : Option Room) (userId : Nat) : LeaveOutcome :=
  match room? with
  | none => .notFound
  | some room =>
    if room.isActive = false then .notFound
    else if ¬ room.members.any (fun m => m.userId == userId) then
      .notMember room
    else
      let room₁ :=
        if room.hostId = userId then
          let otherMembers := room.members.filter (fun m => m.userId != userId)
          if otherMembers.length > 0 then
            match (sortByKey (fun m => (m.joinedAt : Int)) otherMembers).head? with
            | some newHost =>
              { room with
                  hostId := newHost.userId,
                  members := updateFirst (fun m => m.userId == newHost.userId)
                    (fun m => { m with role := Role.host }) room.members }
            | none => room
          else { room with isActive := false }
        else room
      let room₂ := room₁.removeMember userId
      .ok room₂ room₂.isActive

/-- Result of the socket `leave-room` handler: the stored room afterwards,
the events emitted to the invoker, and the events sent to the rest of the
room. -/
structure SocketLeaveOutcome where
  room? : Option Room
  toInvoker : List SEvent
  toOthers : List SEvent
deriving DecidableEq

/-- The socket `leave-room` handler from socketHandlers.js: when the
invoker's Connection Registry entry is not bound to `roomId` it returns at
once, emitting nothing and changing nothing; otherwise it clears the
member's online flag and emits `user-left` / `room-left`. -/
def leaveRoomSocket (userId : Nat) (conn : Option Nat) (roomId : Nat)
    (room? : Option Room) : SocketLeaveOutcome :=
  if conn ≠ some roomId then
    ⟨room?, [], []⟩
  else
    match room? with
    | some room => ⟨some (room.updateMemberStatus userId false), [.roomLeft], [.userLeft userId]⟩
    | none => ⟨none, [.roomLeft], [.userLeft userId]⟩

/-- POST /api/rooms (create room) from routes/chat.js: a fresh room with
the creator as sole member in role host, an empty queue, the schema-default
currentTrack and the caller-supplied settings. -/
def createRoom (hostId : Nat) (now : Nat) (isPrivate : Bool)
    (passcode : Option String) (maxMembers : Nat) (settings : RSettings) : Room :=
  { hostId := hostId,
    isPrivate := isPrivate,
    passcode := if isPrivate then passcode else none,
    maxMembers := maxMembers,
    members := [⟨hostId, now, Role.host, true⟩],
    queue := [],
    currentTrack := {},
    settings := settings,
    isActive := true }

/-- Room states reachable from room creation through the engine's
operations: music control events (play, pause, seek, next, volume), the
REST join and leave routes, and the socket join-room / leave-room online
flag updates.  The schema validators bound settings.volume to [0,100] at
creation, and Math.random() draws lie in [0,1). -/
inductive Reachable (songs : List Nat) : Room → Prop
  | created (hostId now : Nat) (isPrivate : Bool) (passcode : Option String)
      (maxMembers : Nat) (settings : RSettings)
      (hvol : 0 ≤ settings.volume ∧ settings.volume ≤ 100) :
      Reachable songs (createRoom hostId now isPrivate passcode maxMembers settings)
  | control (r r' : Room) (userId roomId now : Nat) (act : MusicAction) (rand : ℚ)
      (hr : Reachable songs r) (h0 : 0 ≤ rand) (h1 : rand < 1)
      (hstep : (handleMusicControl songs userId (some roomId) roomId (some r)
        act now rand).room? = some r') :
      Reachable songs r'
  | joinStep (r r' : Room) (userId now : Nat) (passcode? : Option String)
      (hr : Reachable songs r)
      (hstep : joinRoom (some r) userId passcode? now = .alreadyMember r' ∨
               joinRoom (some r) userId passcode? now = .joined r') :
      Reachable songs r'
  | leaveStep (r r' : Room) (userId : Nat) (b : Bool)
      (hr : Reachable songs r)
      (hstep : leaveRoom (some r) userId = .ok r' b) :
      Reachable songs r'
  | socketJoin (r : Room) (userId : Nat)
      (hr : Reachable songs r) :
      Reachable songs (r.updateMemberStatus userId true)
  | socketLeave (r r' : Room) (userId roomId : Nat)
      (hr : Reachable songs r)
      (hstep : (leaveRoomSocket userId (some roomId) roomId (some r)).room? = some r') :
      Reachable songs r'

/-- Concrete room used to witness C7. -/
def c7Room : Room :=
  { hostId := 0,
    members := [⟨0, 0, Role.host, true⟩],
    queue := [⟨5, 0, 0, 3⟩, ⟨6, 0, 1, 7⟩] }

/-- Concrete room used for the C2 counterexample and witnesses: a single
host, default settings (volume 80). -/
def c2Room : Room :=
  { hostId := 0,
    members := [⟨0, 0, Role.host, true⟩] }

/-- Concrete room used to witness C10: a host and a plain member. -/
def c10Room : Room :=
  { hostId := 4,
    members := [⟨4, 0, Role.host, true⟩, ⟨5, 1, Role.plainMember, true⟩] }

/-- Concrete room used to witness C5: one host and one plain member,
allowMembersToSkip left at its default false. -/
def c5Room : Room :=
  { hostId := 0,
    members := [⟨0, 0, Role.host, true⟩, ⟨7, 2, Role.plainMember, true⟩] }

/-- Concrete room used to witness C6: host 0, a queue containing song 5
twice and song 6 once. -/
def c6Room : Room :=
  { hostId := 0,
    members := [⟨0, 0, Role.host, true⟩],
    queue := [⟨5, 0, 0, 1⟩, ⟨6, 0, 1, 2⟩, ⟨5, 0, 2, 3⟩] }

/-- Concrete active room with a single host member, used for C8. -/
def c8Room : Room :=
  { hostId := 0,
    members := [⟨0, 0, Role.host, true⟩] }

/-- Concrete room at capacity for C9: maxMembers 2 and two members. -/
def c9Room : Room :=
  { hostId := 0,
    maxMembers := 2,
    members := [⟨0, 0, Role.host, true⟩, ⟨1, 1, Role.plainMember, true⟩] }

/-- Concrete room for the C4 witness: host 0, and two other members whose
joinedAt timestamps are 5 and 3 — member 2 (joinedAt 3) is the earliest. -/
def c4Room : Room :=
  { hostId := 0,
    members := [⟨0, 0, Role.host, true⟩, ⟨1, 5, Role.plainMember, true⟩,
                ⟨2, 3, Role.plainMember, true⟩] }

/-- Concrete room for the C3 witness: host 0 and an empty queue. -/
def c3Room : Room :=
  { hostId := 0,
    members := [⟨0, 0, Role.host, true⟩] }

/-- Concrete room for the C3 counterexample: an empty queue while a track
is loaded and playing, its startedAt and playedBy populated — the state
left by a play(songX) that drained the queue. -/
def c3BadRoom : Room :=
  { hostId := 0,
    members := [⟨0, 0, Role.host, true⟩],
    currentTrack := { songId := some 5, startedAt := some 3, currentTime := 40,
                      isPlaying := true, playedBy := some 0 } }

/-- Reachable room state violating the claimed invariant: a fresh room
whose host issued a resume play (no songId) while no track was loaded. -/
def c1Room : Room :=
  { hostId := 0,
    members := [⟨0, 0, Role.host, true⟩],
    currentTrack := { songId := none, startedAt := some 7, currentTime := 5,
                      isPlaying := true, playedBy := none } }

/-- Concrete stopped room for the C1 witness. -/
def c1WRoom : Room :=
  { hostId := 0,
    members := [⟨0, 0, Role.host, true⟩] }

theorem insertByKey_ne_nil (key : α → Int) (a : α) (l : List α) :
    insertByKey key a l ≠ [] := by
  cases l with
  | nil => simp [insertByKey]
  | cons b bs =>
    simp only [insertByKey]
    split <;> simp

theorem sortByKey_eq_nil_iff (key : α → Int) (l : List α) :
    sortByKey key l = [] ↔ l = [] := by
  cases l with
  | nil => simp [sortByKey]
  | cons a as =>
    simp only [sortByKey]
    constructor
    · intro h; exact absurd h (insertByKey_ne_nil key a _)
    · intro h; exact absurd h (by simp)

/-- The head of the stable ascending sort is the leftmost input element of
minimal key: every element strictly before it in the input has a strictly
larger key, and it is a minimum of the whole input. -/
theorem sortByKey_head_leftmost_min (key : α → Int) :
    ∀ (l : List α) (a : α), (sortByKey key l).head? = some a →
      ∃ l₁ l₂, l = l₁ ++ a :: l₂ ∧ (∀ x ∈ l₁, key a < key x) ∧
        ∀ x ∈ l, key a ≤ key x := by
  intro l
  induction l with
  | nil => intro a h; simp [sortByKey] at h
  | cons b bs ih =>
    intro a h
    simp only [sortByKey] at h
    cases hs : sortByKey key bs with
    | nil =>
      rw [hs] at h
      simp [insertByKey] at h
      have hbs : bs = [] := (sortByKey_eq_nil_iff key bs).mp hs
      subst hbs
      subst h
      exact ⟨[], [], rfl, by simp, by simp⟩
    | cons c cs =>
      rw [hs] at h
      simp only [insertByKey] at h
      by_cases hle : key b ≤ key c
      · rw [if_pos hle] at h
        simp only [List.head?_cons, Option.some.injEq] at h
        subst h
        obtain ⟨l₁, l₂, hdec, hstrict, hmin⟩ := ih c (by rw [hs]; rfl)
        refine ⟨[], bs, rfl, by simp, ?_⟩
        intro x hx
        rcases List.mem_cons.mp hx with h1 | h2
        · subst h1; exact le_refl _
        · exact le_trans hle (hmin x h2)
      · rw [if_neg hle] at h
        simp only [List.head?_cons, Option.some.injEq] at h
        subst h
        obtain ⟨l₁, l₂, hdec, hstrict, hmin⟩ := ih c (by rw [hs]; rfl)
        refine ⟨b :: l₁, l₂, by rw [hdec, List.cons_append], ?_, ?_⟩
        · intro x hx
          rcases List.mem_cons.mp hx with h1 | h2
          · subst h1; omega
          · exact hstrict x h2
        · intro x hx
          rcases List.mem_cons.mp hx with h1 | h2
          · subst h1; omega
          · exact hmin x h2

theorem foldl_max_mem : ∀ (as : List Int) (a : Int),
    as.foldl max a = a ∨ as.foldl max a ∈ as := by
  intro as
  induction as with
  | nil => intro a; left; rfl
  | cons b bs ih =>
    intro a
    simp only [List.foldl_cons]
    rcases ih (max a b) with h | h
    · rcases max_choice a b with hm | hm
      · left; rw [h, hm]
      · right; rw [h, hm]; exact List.mem_cons_self _ _
    · right; exact List.mem_cons_of_mem _ h

theorem le_foldl_max : ∀ (as : List Int) (a : Int),
    a ≤ as.foldl max a ∧ ∀ x ∈ as, x ≤ as.foldl max a := by
  intro as
  induction as with
  | nil => intro a; exact ⟨le_refl _, by simp⟩
  | cons b bs ih =>
    intro a
    simp only [List.foldl_cons]
    obtain ⟨h1, h2⟩ := ih (max a b)
    refine ⟨le_trans (le_max_left a b) h1, ?_⟩
    intro x hx
    rcases List.mem_cons.mp hx with h3 | h3
    · rw [h3]; exact le_trans (le_max_right a b) h1
    · exact h2 x h3

theorem listMax_mem (a : Int) (as : List Int) : listMax (a :: as) ∈ a :: as := by
  simp only [listMax]
  rcases foldl_max_mem as a with h | h
  · rw [h]; exact List.mem_cons_self _ _
  · exact List.mem_cons_of_mem _ h

theorem le_listMax (a : Int) (as : List Int) :
    ∀ x ∈ a :: as, x ≤ listMax (a :: as) := by
  intro x hx
  simp only [listMax]
  obtain ⟨h1, h2⟩ := le_foldl_max as a
  rcases List.mem_cons.mp hx with h3 | h3
  · subst h3; exact h1
  · exact h2 x h3

theorem updateFirst_map_eq (p : α → Bool) (f : α → α) (g : α → β)
    (hg : ∀ a, g (f a) = g a) : ∀ l : List α, (updateFirst p f l).map g = l.map g := by
  intro l
  induction l with
  | nil => rfl
  | cons a as ih =>
    simp only [updateFirst]
    split
    · simp [hg]
    · simp only [List.map_cons, ih]

/-- When member ids are unique, the member carrying the promoted id in the
updateFirst result has role host. -/
theorem updateFirst_host_role :
    ∀ (l : List RMember) (u : Nat),
      l.Pairwise (fun m₁ m₂ => m₁.userId ≠ m₂.userId) →
      ∀ m ∈ updateFirst (fun m => m.userId == u)
          (fun m => { m with role := Role.host }) l,
        m.userId = u → m.role = Role.host := by
  intro l
  induction l with
  | nil => intro u _ m hm; simp [updateFirst] at hm
  | cons a as ih =>
    intro u huniq m hm hmu
    obtain ⟨hna, htail⟩ := List.pairwise_cons.mp huniq
    simp only [updateFirst] at hm
    by_cases ha : a.userId = u
    · rw [if_pos (by simpa using ha)] at hm
      rcases List.mem_cons.mp hm with rfl | hmem
      · rfl
      · exact absurd (ha.trans hmu.symm) (hna m hmem)
    · rw [if_neg (by simpa using ha)] at hm
      rcases List.mem_cons.mp hm with rfl | hmem
      · exact absurd hmu ha
      · exact ih u htail m hmem hmu

theorem jsNumOr_zero (x : Int) : jsNumOr x 0 = x := by
  unfold jsNumOr
  split <;> omega

theorem shuffleIndex_lt (rand : ℚ) (n : Nat) (h0 : 0 ≤ rand) (h1 : rand < 1)
    (hn : 0 < n) : shuffleIndex rand n < n := by
  unfold shuffleIndex
  have hn' : (0:ℚ) < (n:ℚ) := by exact_mod_cast hn
  have hlt : rand * n < ((n : ℤ) : ℚ) := by
    push_cast
    calc rand * n < 1 * n := mul_lt_mul_of_pos_right h1 hn'
      _ = n := one_mul _
  have hfloor : Int.floor (rand * (n:ℚ)) < (n : ℤ) := Int.floor_lt.mpr hlt
  have h0f : (0:ℤ) ≤ Int.floor (rand * (n:ℚ)) :=
    Int.floor_nonneg.mpr (mul_nonneg h0 hn'.le)
  omega

/-- Uniformity of the shuffle choice: index `i` is drawn exactly when the
random draw falls in the half-open interval from `i/n` to `(i+1)/n`; the
preimages of the indices partition `[0,1)` into `n` intervals of equal
length `1/n`. -/
theorem shuffleIndex_eq_iff (rand : ℚ) (n i : Nat) (h0 : 0 ≤ rand) (hn : 0 < n) :
    shuffleIndex rand n = i ↔
      ((i : ℚ) / n ≤ rand ∧ rand < ((i : ℚ) + 1) / n) := by
  unfold shuffleIndex
  have hn' : (0:ℚ) < (n:ℚ) := by exact_mod_cast hn
  have h0f : (0:ℤ) ≤ Int.floor (rand * (n:ℚ)) :=
    Int.floor_nonneg.mpr (mul_nonneg h0 hn'.le)
  have hfl : Int.floor (rand * (n:ℚ)) = (i : ℤ) ↔
      ((i:ℚ) ≤ rand * n ∧ rand * n < (i:ℚ) + 1) := by
    rw [Int.floor_eq_iff]
    push_cast
    exact Iff.rfl
  constructor
  · intro h
    have heq : Int.floor (rand * (n:ℚ)) = (i:ℤ) := by omega
    obtain ⟨ha, hb⟩ := hfl.mp heq
    exact ⟨(div_le_iff₀ hn').mpr ha, (lt_div_iff₀ hn').mpr hb⟩
  · intro h
    obtain ⟨ha, hb⟩ := h
    have heq := hfl.mpr ⟨(div_le_iff₀ hn').mp ha, (lt_div_iff₀ hn').mp hb⟩
    omega

/-- When the invoker is bound to the room, the room is active, the invoker
is a member and the permission predicate passes, handleMusicControl runs
the action switch. -/
theorem handleMusicControl_authorized (songs : List Nat) (userId roomId now : Nat)
    (room : Room) (mem : RMember) (act : MusicAction) (rand : ℚ)
    (hact : room.isActive = true)
    (hmem : room.members.find? (fun m => m.userId == userId) = some mem)
    (hcan : mem.role = Role.host ∨ mem.role = Role.moderator ∨
      (room.settings.allowMembersToSkip = true ∧ act.name = "next") ∨
      act.name = "volume") :
    handleMusicControl songs userId (some roomId) roomId (some room) act now rand =
      musicSwitch songs userId room act now rand := by
  unfold handleMusicControl
  rw [if_neg (by simp)]
  simp only [hact, hmem]
  rw [if_neg (by simp)]
  rw [if_neg ?_]
  intro hcond
  obtain ⟨hnot, hnv⟩ := hcond
  rcases hcan with h | h | h | h
  · exact hnot (Or.inl h)
  · exact hnot (Or.inr (Or.inl h))
  · exact hnot (Or.inr (Or.inr h))
  · exact hnv h

/-- When the invoker is a bound member of an active room but fails the
permission predicate (and the action is not volume), handleMusicControl
rejects with the authorization error, leaves the room unchanged, and emits
nothing beyond the error to the invoker. -/
theorem handleMusicControl_reject (songs : List Nat) (userId roomId now : Nat)
    (room : Room) (mem : RMember) (act : MusicAction) (rand : ℚ)
    (hact : room.isActive = true)
    (hmem : room.members.find? (fun m => m.userId == userId) = some mem)
    (hnot : ¬ (mem.role = Role.host ∨ mem.role = Role.moderator ∨
      (room.settings.allowMembersToSkip = true ∧ act.name = "next")))
    (hnv : act.name ≠ "volume") :
    handleMusicControl songs userId (some roomId) roomId (some room) act now rand =
      ⟨some room, [.errorMsg "Only host and moderators can control music"], [], []⟩ := by
  unfold handleMusicControl
  rw [if_neg (by simp)]
  simp only [hact, hmem]
  rw [if_neg (by simp)]
  rw [if_pos ⟨hnot, hnv⟩]

theorem getNextSongPick_nil (room : Room) (rand : ℚ) (h : room.queue = []) :
    room.getNextSongPick rand = (none, room.queue) := by
  unfold Room.getNextSongPick
  rw [if_pos (by rw [h]; rfl)]

theorem getNextSongPick_noShuffle (room : Room) (rand : ℚ)
    (hq : room.queue ≠ []) (hs : room.settings.shuffleMode = false) :
    room.getNextSongPick rand =
      ((sortByKey (fun item => item.order) room.queue).head?,
        sortByKey (fun item => item.order) room.queue) := by
  unfold Room.getNextSongPick
  rw [if_neg (by simpa using hq), hs]
  rfl

theorem getNextSongPick_shuffle (room : Room) (rand : ℚ)
    (hq : room.queue ≠ []) (hs : room.settings.shuffleMode = true) :
    room.getNextSongPick rand =
      (room.queue.get? (shuffleIndex rand room.queue.length), room.queue) := by
  unfold Room.getNextSongPick
  rw [if_neg (by simpa using hq), hs]
  rfl

/-- C7: addToQueue appends an item whose order is max(existing orders) + 1,
or 1 when the queue is empty; removeFromQueue keeps every remaining item
verbatim (its order value included) and preserves the relative order of the
remaining items. -/
theorem c7_queue_order_invariant (room : Room) (sid addedBy now : Nat) :
    ((room.queue = [] →
        (room.addToQueue sid addedBy now).queue = room.queue ++ [⟨sid, addedBy, now, 1⟩]) ∧
     (room.queue ≠ [] → ∃ m : Int,
        m ∈ room.queue.map (fun item => item.order) ∧
        (∀ x ∈ room.queue, x.order ≤ m) ∧
        (room.addToQueue sid addedBy now).queue = room.queue ++ [⟨sid, addedBy, now, m + 1⟩])) ∧
    ((room.removeFromQueue sid).queue.Sublist room.queue ∧
     ∀ x, x ∈ (room.removeFromQueue sid).queue ↔ x ∈ room.queue ∧ x.songId ≠ sid) := by
  refine ⟨⟨?_, ?_⟩, ?_, ?_⟩
  · intro h
    simp [Room.addToQueue, h]
  · intro h
    obtain ⟨q0, qs, hq⟩ := List.exists_cons_of_ne_nil h
    have hmap : room.queue.map (fun item => item.order) =
        q0.order :: qs.map (fun item => item.order) := by rw [hq]; rfl
    refine ⟨listMax (room.queue.map (fun item => item.order)), ?_, ?_, ?_⟩
    · rw [hmap]
      exact listMax_mem _ _
    · intro x hx
      have hx' : x.order ∈ room.queue.map (fun item => item.order) :=
        List.mem_map_of_mem _ hx
      rw [hmap] at hx' ⊢
      exact le_listMax _ _ _ hx'
    · simp only [Room.addToQueue]
      rw [if_pos (by rw [hq]; simp)]
  · exact List.filter_sublist _
  · intro x
    simp [Room.removeFromQueue, List.mem_filter, bne_iff_ne]

/-- Witness for C7 at a concrete room: appending to a queue with orders
[3, 7] yields order 8, and removing song 5 keeps item 6 with order 7. -/
theorem c7_queue_order_invariant_witness :
    (c7Room.addToQueue 9 1 2).queue = c7Room.queue ++ [⟨9, 1, 2, 8⟩] ∧
    (c7Room.removeFromQueue 5).queue.Sublist c7Room.queue := by
  have h := c7_queue_order_invariant c7Room 5 1 2
  have h2 := (c7_queue_order_invariant c7Room 9 1 2).1.2 (by decide)
  refine ⟨?_, h.2.1⟩
  obtain ⟨m, hm, hle, heq⟩ := h2
  have hm7 : m = 7 := by
    have h7 : (7:Int) ≤ m := hle ⟨6, 0, 1, 7⟩ (by decide)
    simp only [c7Room] at hm
    simp at hm
    omega
  rw [hm7] at heq
  exact heq

/-- C2 (amended): an in-range volume value is stored exactly as given and
nothing else in the room changes; an out-of-range value leaves the room
unchanged but is NOT rejected with an error — the invoker receives a bare
music-control-success acknowledgment and the other members an empty
music-update. -/
theorem c2_volume_range (songs : List Nat) (userId roomId now : Nat)
    (room : Room) (mem : RMember) (v : Int) (rand : ℚ)
    (hact : room.isActive = true)
    (hmem : room.members.find? (fun m => m.userId == userId) = some mem) :
    ((0 ≤ v ∧ v ≤ 100) →
      ∃ r', (handleMusicControl songs userId (some roomId) roomId (some room)
          (.volume v) now rand).room? = some r' ∧
        r'.settings.volume = v ∧ r'.queue = room.queue ∧
        r'.members = room.members ∧ r'.currentTrack = room.currentTrack) ∧
    (¬ (0 ≤ v ∧ v ≤ 100) →
      handleMusicControl songs userId (some roomId) roomId (some room)
          (.volume v) now rand =
        ⟨some room, [.controlSuccess "volume" {}], [.musicUpdate {}], []⟩) := by
  have hauth := handleMusicControl_authorized songs userId roomId now room mem
    (.volume v) rand hact hmem (Or.inr (Or.inr (Or.inr rfl)))
  rw [hauth]
  constructor
  · intro hv
    simp only [musicSwitch]
    rw [if_pos hv]
    exact ⟨_, rfl, rfl, rfl, rfl, rfl⟩
  · intro hv
    simp only [musicSwitch]
    rw [if_neg hv]

/-- C2 counterexample: volume(150) from the bound host of an active room is
not rejected — no error event is emitted to the invoker; instead a
music-control-success acknowledgment is sent and the room is stored
unchanged (volume stays 80). -/
theorem c2_volume_range_counterexample :
    handleMusicControl [] 0 (some 1) 1 (some c2Room) (.volume 150) 3 0 =
      ⟨some c2Room, [.controlSuccess "volume" {}], [.musicUpdate {}], []⟩ ∧
    c2Room.settings.volume = 80 := by
  constructor
  · rfl
  · rfl

/-- Witness for C2 (amended) at volume 50 and at volume 150 on c2Room. -/
theorem c2_volume_range_witness :
    c2Room.isActive = true ∧
    c2Room.members.find? (fun m => m.userId == 0) = some ⟨0, 0, Role.host, true⟩ ∧
    ((((0:Int) ≤ 50 ∧ (50:Int) ≤ 100) →
      ∃ r', (handleMusicControl [] 0 (some 1) 1 (some c2Room)
          (.volume 50) 3 0).room? = some r' ∧
        r'.settings.volume = 50 ∧ r'.queue = c2Room.queue ∧
        r'.members = c2Room.members ∧ r'.currentTrack = c2Room.currentTrack) ∧
    (¬ ((0:Int) ≤ 50 ∧ (50:Int) ≤ 100) →
      handleMusicControl [] 0 (some 1) 1 (some c2Room)
          (.volume 50) 3 0 =
        ⟨some c2Room, [.controlSuccess "volume" {}], [.musicUpdate {}], []⟩)) :=
  ⟨rfl, by decide,
    c2_volume_range [] 0 1 3 c2Room ⟨0, 0, Role.host, true⟩ 50 0 rfl (by decide)⟩

/-- C10: an out-of-range volume event from any bound member of an active
room produces a music-control-success acknowledgment to the invoker
carrying only the action tag (empty payload, in particular no volume
field), an empty music-update broadcast to the other members, no error
event, and an unchanged room; an in-range volume event also answers with a
music-control-success, so the invoker cannot tell the two apart by event
type. -/
theorem c10_out_of_range_volume_silent (songs : List Nat) (userId roomId now : Nat)
    (room : Room) (mem : RMember) (v : Int) (rand : ℚ)
    (hact : room.isActive = true)
    (hmem : room.members.find? (fun m => m.userId == userId) = some mem)
    (hout : v < 0 ∨ 100 < v) :
    (handleMusicControl songs userId (some roomId) roomId (some room)
        (.volume v) now rand).toInvoker = [.controlSuccess "volume" {}] ∧
    (handleMusicControl songs userId (some roomId) roomId (some room)
        (.volume v) now rand).toOthers = [.musicUpdate {}] ∧
    (handleMusicControl songs userId (some roomId) roomId (some room)
        (.volume v) now rand).room? = some room ∧
    (∀ w : Int, 0 ≤ w → w ≤ 100 →
      ∃ b, (handleMusicControl songs userId (some roomId) roomId (some room)
        (.volume w) now rand).toInvoker = [.controlSuccess "volume" b]) := by
  have hauth := handleMusicControl_authorized songs userId roomId now room mem
    (.volume v) rand hact hmem (Or.inr (Or.inr (Or.inr rfl)))
  have hnin : ¬ ((0:Int) ≤ v ∧ v ≤ 100) := by
    intro hin
    rcases hout with h | h <;> omega
  rw [hauth]
  simp only [musicSwitch]
  rw [if_neg hnin]
  refine ⟨rfl, rfl, rfl, ?_⟩
  intro w hw0 hw1
  have hauthw := handleMusicControl_authorized songs userId roomId now room mem
    (.volume w) rand hact hmem (Or.inr (Or.inr (Or.inr rfl)))
  rw [hauthw]
  simp only [musicSwitch]
  rw [if_pos ⟨hw0, hw1⟩]
  exact ⟨_, rfl⟩

/-- Witness for C10 at volume 150 sent by the plain member of c10Room. -/
theorem c10_out_of_range_volume_silent_witness :
    c10Room.isActive = true ∧
    c10Room.members.find? (fun m => m.userId == 5) = some ⟨5, 1, Role.plainMember, true⟩ ∧
    ((150:Int) < 0 ∨ (100:Int) < 150) ∧
    ((handleMusicControl [] 5 (some 1) 1 (some c10Room)
        (.volume 150) 3 0).toInvoker = [.controlSuccess "volume" {}] ∧
     (handleMusicControl [] 5 (some 1) 1 (some c10Room)
        (.volume 150) 3 0).toOthers = [.musicUpdate {}] ∧
     (handleMusicControl [] 5 (some 1) 1 (some c10Room)
        (.volume 150) 3 0).room? = some c10Room ∧
     (∀ w : Int, 0 ≤ w → w ≤ 100 →
       ∃ b, (handleMusicControl [] 5 (some 1) 1 (some c10Room)
         (.volume w) 3 0).toInvoker = [.controlSuccess "volume" b])) :=
  ⟨rfl, by decide, by decide,
    c10_out_of_range_volume_silent [] 5 1 3 c10Room ⟨5, 1, Role.plainMember, true⟩
      150 0 rfl (by decide) (by decide)⟩

/-- The item chosen by getNextSong is an element of the queue. -/
theorem getNextSongPick_mem (room : Room) (rand : ℚ) (chosen : QueueItem)
    (h : (room.getNextSongPick rand).1 = some chosen) : chosen ∈ room.queue := by
  unfold Room.getNextSongPick at h
  by_cases h0 : room.queue.length = 0
  · rw [if_pos h0] at h
    simp at h
  · rw [if_neg h0] at h
    by_cases hs : room.settings.shuffleMode = true
    · rw [if_pos hs] at h
      simp only at h
      exact List.get?_mem h
    · rw [if_neg hs] at h
      simp only at h
      obtain ⟨l₁, l₂, hdec, _, _⟩ := sortByKey_head_leftmost_min _ _ _ h
      rw [hdec]
      exact List.mem_append.mpr (Or.inr (List.mem_cons_self _ _))

/-- C5: play, pause and seek from a plain member are rejected with the
authorization error, changing nothing and emitting nothing beyond the
error to the invoker; next from a plain member is rejected exactly when
allowMembersToSkip is false and is processed when it is true; volume is
processed for a plain member regardless. -/
theorem c5_plain_member_authorization (songs : List Nat) (userId roomId now : Nat)
    (room : Room) (mem : RMember) (rand : ℚ)
    (hact : room.isActive = true)
    (hmem : room.members.find? (fun m => m.userId == userId) = some mem)
    (hrole : mem.role = Role.plainMember)
    (hq : ∀ item ∈ room.queue, item.songId ∈ songs) :
    (∀ (sid? : Option Nat) (ct : Int),
      handleMusicControl songs userId (some roomId) roomId (some room)
          (.play sid? ct) now rand =
        ⟨some room, [.errorMsg "Only host and moderators can control music"], [], []⟩) ∧
    (∀ ct : Int,
      handleMusicControl songs userId (some roomId) roomId (some room)
          (.pause ct) now rand =
        ⟨some room, [.errorMsg "Only host and moderators can control music"], [], []⟩) ∧
    (∀ ct : Int,
      handleMusicControl songs userId (some roomId) roomId (some room)
          (.seek ct) now rand =
        ⟨some room, [.errorMsg "Only host and moderators can control music"], [], []⟩) ∧
    (room.settings.allowMembersToSkip = false →
      handleMusicControl songs userId (some roomId) roomId (some room)
          .next now rand =
        ⟨some room, [.errorMsg "Only host and moderators can control music"], [], []⟩) ∧
    (room.settings.allowMembersToSkip = true →
      ∃ b, (handleMusicControl songs userId (some roomId) roomId (some room)
          .next now rand).toInvoker = [.controlSuccess "next" b]) ∧
    (∀ v : Int,
      ∃ b, (handleMusicControl songs userId (some roomId) roomId (some room)
          (.volume v) now rand).toInvoker = [.controlSuccess "volume" b]) := by
  have hroleh : mem.role ≠ Role.host := by rw [hrole]; intro h; cases h
  have hrolem : mem.role ≠ Role.moderator := by rw [hrole]; intro h; cases h
  refine ⟨?_, ?_, ?_, ?_, ?_, ?_⟩
  · intro sid? ct
    exact handleMusicControl_reject songs userId roomId now room mem _ rand hact hmem
      (by rintro (h | h | ⟨_, h⟩)
          · exact hroleh h
          · exact hrolem h
          · exact absurd h (by simp [MusicAction.name]))
      (by simp [MusicAction.name])
  · intro ct
    exact handleMusicControl_reject songs userId roomId now room mem _ rand hact hmem
      (by rintro (h | h | ⟨_, h⟩)
          · exact hroleh h
          · exact hrolem h
          · exact absurd h (by simp [MusicAction.name]))
      (by simp [MusicAction.name])
  · intro ct
    exact handleMusicControl_reject songs userId roomId now room mem _ rand hact hmem
      (by rintro (h | h | ⟨_, h⟩)
          · exact hroleh h
          · exact hrolem h
          · exact absurd h (by simp [MusicAction.name]))
      (by simp [MusicAction.name])
  · intro hskip
    exact handleMusicControl_reject songs userId roomId now room mem _ rand hact hmem
      (by rintro (h | h | ⟨h, _⟩)
          · exact hroleh h
          · exact hrolem h
          · rw [hskip] at h; cases h)
      (by simp [MusicAction.name])
  · intro hskip
    have hauth := handleMusicControl_authorized songs userId roomId now room mem
      .next rand hact hmem (Or.inr (Or.inr (Or.inl ⟨hskip, rfl⟩)))
    rw [hauth]
    simp only [musicSwitch]
    cases hpick : (room.getNextSongPick rand).1 with
    | none => exact ⟨_, rfl⟩
    | some chosen =>
      have hcmem : chosen ∈ room.queue := getNextSongPick_mem room rand chosen hpick
      simp only []
      rw [if_neg (not_not_intro (hq chosen hcmem))]
      exact ⟨_, rfl⟩
  · intro v
    have hauth := handleMusicControl_authorized songs userId roomId now room mem
      (.volume v) rand hact hmem (Or.inr (Or.inr (Or.inr rfl)))
    rw [hauth]
    simp only [musicSwitch]
    by_cases hv : (0:Int) ≤ v ∧ v ≤ 100
    · rw [if_pos hv]; exact ⟨_, rfl⟩
    · rw [if_neg hv]; exact ⟨_, rfl⟩

/-- Witness for C5: the plain member 7 of c5Room; in particular its
next event while allowMembersToSkip is false is rejected with the
authorization error and nothing changes. -/
theorem c5_plain_member_authorization_witness :
    c5Room.isActive = true ∧
    c5Room.members.find? (fun m => m.userId == 7) = some ⟨7, 2, Role.plainMember, true⟩ ∧
    (∀ item ∈ c5Room.queue, item.songId ∈ ([] : List Nat)) ∧
    (c5Room.settings.allowMembersToSkip = false →
      handleMusicControl [] 7 (some 1) 1 (some c5Room) .next 9 0 =
        ⟨some c5Room, [.errorMsg "Only host and moderators can control music"], [], []⟩) :=
  ⟨rfl, by decide, by decide,
    (c5_plain_member_authorization [] 7 1 9 c5Room ⟨7, 2, Role.plainMember, true⟩ 0
      rfl (by decide) rfl (by decide)).2.2.2.1⟩

/-- C6: a play event carrying a songId from the host or a moderator fails
with "Song not found" and changes nothing when the song does not exist;
otherwise the current track becomes exactly the requested song started now
at the given position, played by the invoker, and every queue entry for
that songId is removed while all other entries survive in order. -/
theorem c6_play_specific_song (songs : List Nat) (userId roomId now : Nat)
    (room : Room) (mem : RMember) (sid : Nat) (ct : Int) (rand : ℚ)
    (hact : room.isActive = true)
    (hmem : room.members.find? (fun m => m.userId == userId) = some mem)
    (hcan : mem.role = Role.host ∨ mem.role = Role.moderator) :
    (sid ∉ songs →
      handleMusicControl songs userId (some roomId) roomId (some room)
          (.play (some sid) ct) now rand =
        ⟨some room, [.errorMsg "Song not found"], [], []⟩) ∧
    (sid ∈ songs →
      ∃ r', (handleMusicControl songs userId (some roomId) roomId (some room)
          (.play (some sid) ct) now rand).room? = some r' ∧
        r'.currentTrack = ⟨some sid, some now, ct, true, some userId⟩ ∧
        (∀ item ∈ r'.queue, item.songId ≠ sid) ∧
        (∀ item ∈ room.queue, item.songId ≠ sid → item ∈ r'.queue) ∧
        r'.queue.Sublist room.queue) := by
  have hauth := handleMusicControl_authorized songs userId roomId now room mem
    (.play (some sid) ct) rand hact hmem
    (by rcases hcan with h | h
        · exact Or.inl h
        · exact Or.inr (Or.inl h))
  rw [hauth]
  simp only [musicSwitch]
  constructor
  · intro hnot
    rw [if_pos hnot]
  · intro hin
    rw [if_neg (not_not_intro hin)]
    refine ⟨_, rfl, ?_, ?_, ?_, ?_⟩
    · show (⟨some sid, some now, jsNumOr ct 0, true, some userId⟩ : CurrentTrack) = _
      rw [jsNumOr_zero]
    · intro item hitem
      simp only [Room.removeFromQueue, List.mem_filter, bne_iff_ne] at hitem
      exact hitem.2
    · intro item hitem hne
      simp only [Room.removeFromQueue, List.mem_filter, bne_iff_ne]
      exact ⟨hitem, hne⟩
    · exact List.filter_sublist _

/-- Witness for C6: playing song 5 (which exists) in c6Room yields a
current track for song 5 and removes both queue entries for it. -/
theorem c6_play_specific_song_witness :
    c6Room.isActive = true ∧
    c6Room.members.find? (fun m => m.userId == 0) = some ⟨0, 0, Role.host, true⟩ ∧
    (5 ∈ [5, 6] →
      ∃ r', (handleMusicControl [5, 6] 0 (some 1) 1 (some c6Room)
          (.play (some 5) 30) 9 0).room? = some r' ∧
        r'.currentTrack = ⟨some 5, some 9, 30, true, some 0⟩ ∧
        (∀ item ∈ r'.queue, item.songId ≠ 5) ∧
        (∀ item ∈ c6Room.queue, item.songId ≠ 5 → item ∈ r'.queue) ∧
        r'.queue.Sublist c6Room.queue) :=
  ⟨rfl, by decide,
    (c6_play_specific_song [5, 6] 0 1 9 c6Room ⟨0, 0, Role.host, true⟩ 5 30 0
      rfl (by decide) (Or.inl rfl)).2⟩

/-- C8 counterexample: identity 5 is not bound to room 1.  The socket
leave-room handler returns silently — no event at all is emitted, in
particular no NotFound error — and the room is unchanged; the REST leave
route rejects the non-member with the 403 Authorization error of
requireRoomMember, not with NotFound. -/
theorem c8_unbound_leave_counterexample :
    leaveRoomSocket 5 none 1 (some c8Room) =
      { room? := some c8Room, toInvoker := [], toOthers := [] } ∧
    leaveRoom (some c8Room) 5 = .notMember c8Room :=
  ⟨rfl, rfl⟩

/-- C8 (amended): a socket-level leave by an identity whose connection is
not bound to the room is silently ignored — no events and no state change;
a REST-level leave by a non-member of an active room is rejected by the
requireRoomMember middleware with an Authorization error (403), not
NotFound, and the room is unchanged. -/
theorem c8_unbound_leave (userId roomId : Nat) (conn : Option Nat)
    (room? : Option Room) (room : Room)
    (hconn : conn ≠ some roomId)
    (hact : room.isActive = true)
    (hnm : room.members.any (fun m => m.userId == userId) = false) :
    leaveRoomSocket userId conn roomId room? =
      { room? := room?, toInvoker := [], toOthers := [] } ∧
    leaveRoom (some room) userId = .notMember room := by
  constructor
  · unfold leaveRoomSocket
    rw [if_pos hconn]
  · unfold leaveRoom
    simp only []
    rw [if_neg (by rw [hact]; simp)]
    rw [if_pos (by rw [hnm]; simp)]

/-- Witness for C8 (amended) at the concrete c8Room and identity 5. -/
theorem c8_unbound_leave_witness :
    (none ≠ some 1) ∧
    c8Room.isActive = true ∧
    c8Room.members.any (fun m => m.userId == 5) = false ∧
    (leaveRoomSocket 5 none 1 (some c8Room) =
       { room? := some c8Room, toInvoker := [], toOthers := [] } ∧
     leaveRoom (some c8Room) 5 = .notMember c8Room) :=
  ⟨by decide, rfl, by decide,
    c8_unbound_leave 5 1 none (some c8Room) c8Room (by decide) rfl (by decide)⟩

/-- C9 counterexample: c9Room is at capacity (2 members, maxMembers 2),
yet a join by the already-member identity 0 does not fail Full — the
already-member check runs before the capacity check and the join succeeds
idempotently. -/
theorem c9_full_room_join_counterexample :
    c9Room.members.length ≥ c9Room.maxMembers ∧
    joinRoom (some c9Room) 0 none 5 = .alreadyMember c9Room := by
  exact ⟨by decide, rfl⟩

/-- C9 (amended): a join by a non-member against a full active room fails
Full with the room unchanged; a join by an existing member bypasses the
capacity check entirely and succeeds idempotently — only the member's
online flag can change, no entry is added or removed. -/
theorem c9_full_room_join (room : Room) (userId : Nat) (pc? : Option String)
    (now : Nat)
    (hact : room.isActive = true)
    (hfull : room.members.length ≥ room.maxMembers) :
    (room.members.any (fun m => m.userId == userId) = false →
      joinRoom (some room) userId pc? now = .full room) ∧
    (room.members.any (fun m => m.userId == userId) = true →
      ∃ r', joinRoom (some room) userId pc? now = .alreadyMember r' ∧
        r'.members.map (fun m => (m.userId, m.joinedAt, m.role)) =
          room.members.map (fun m => (m.userId, m.joinedAt, m.role))) := by
  constructor
  · intro hnm
    unfold joinRoom
    simp only []
    rw [if_neg (by rw [hact]; simp)]
    rw [if_neg (by rw [hnm]; simp)]
    rw [if_pos hfull]
  · intro hm
    unfold joinRoom
    simp only []
    rw [if_neg (by rw [hact]; simp)]
    rw [if_pos hm]
    refine ⟨_, rfl, ?_⟩
    simp only [Room.updateMemberStatus]
    exact updateFirst_map_eq (fun m => m.userId == userId)
      (fun m => { m with isOnline := true })
      (fun m => (m.userId, m.joinedAt, m.role)) (fun a => rfl) room.members

/-- Witness for C9 (amended) on c9Room: non-member 9 is turned away with
Full, already-member 0 gets the idempotent path. -/
theorem c9_full_room_join_witness :
    c9Room.isActive = true ∧
    c9Room.members.length ≥ c9Room.maxMembers ∧
    ((c9Room.members.any (fun m => m.userId == 9) = false →
        joinRoom (some c9Room) 9 none 5 = .full c9Room) ∧
     (c9Room.members.any (fun m => m.userId == 9) = true →
        ∃ r', joinRoom (some c9Room) 9 none 5 = .alreadyMember r' ∧
          r'.members.map (fun m => (m.userId, m.joinedAt, m.role)) =
            c9Room.members.map (fun m => (m.userId, m.joinedAt, m.role)))) :=
  ⟨rfl, by decide, c9_full_room_join c9Room 9 none 5 rfl (by decide)⟩

/-- leaveRoom when the host leaves and no other member remains: the room is
deactivated (never deleted — an ok outcome still carries it) and no leave
message is emitted. -/
theorem leaveRoom_host_no_others (room : Room) (userId : Nat)
    (hact : room.isActive = true)
    (hmem : room.members.any (fun m => m.userId == userId) = true)
    (hhost : room.hostId = userId)
    (hemp : room.members.filter (fun m => m.userId != userId) = []) :
    leaveRoom (some room) userId =
      .ok (Room.removeMember { room with isActive := false } userId) false := by
  unfold leaveRoom
  simp only []
  rw [if_neg (by rw [hact]; simp)]
  rw [if_neg (by rw [hmem]; simp)]
  rw [if_pos hhost, hemp]
  rw [if_neg (by simp)]
  rfl

/-- leaveRoom when the host leaves and other members remain: the head of
the remaining members stably sorted by joinedAt becomes host (both hostId
and its role field), the leaver is removed, and the leave message is
emitted. -/
theorem leaveRoom_host_transfer (room : Room) (userId : Nat) (nh : RMember)
    (hact : room.isActive = true)
    (hmem : room.members.any (fun m => m.userId == userId) = true)
    (hhost : room.hostId = userId)
    (hne : room.members.filter (fun m => m.userId != userId) ≠ [])
    (hhead : (sortByKey (fun m => (m.joinedAt : Int))
        (room.members.filter (fun m => m.userId != userId))).head? = some nh) :
    leaveRoom (some room) userId =
      .ok (Room.removeMember
        { room with
            hostId := nh.userId,
            members := updateFirst (fun m => m.userId == nh.userId)
              (fun m => { m with role := Role.host }) room.members } userId) true := by
  unfold leaveRoom
  simp only []
  rw [if_neg (by rw [hact]; simp)]
  rw [if_neg (by rw [hmem]; simp)]
  rw [if_pos hhost]
  rw [if_pos (List.length_pos.mpr hne)]
  rw [hhead]
  simp only [Room.removeMember, hact]

/-- C4: when the host leaves an active room and at least one other member
remains, the remaining member with the earliest joinedAt (ties broken by
stable input order) becomes host — hostId and its role field are both
updated — and the leave system event is emitted; when no other member
remains the room is deactivated, not deleted, and no leave event is
emitted. -/
theorem c4_host_leave_promotes_earliest (room : Room) (userId : Nat)
    (hact : room.isActive = true)
    (hhost : room.hostId = userId)
    (hmem : room.members.any (fun m => m.userId == userId) = true)
    (huniq : room.members.Pairwise (fun m₁ m₂ => m₁.userId ≠ m₂.userId)) :
    (room.members.filter (fun m => m.userId != userId) = [] →
      ∃ r', leaveRoom (some room) userId = .ok r' false ∧ r'.isActive = false) ∧
    (room.members.filter (fun m => m.userId != userId) ≠ [] →
      ∃ r' nh l₁ l₂,
        leaveRoom (some room) userId = .ok r' true ∧
        room.members.filter (fun m => m.userId != userId) = l₁ ++ nh :: l₂ ∧
        (∀ x ∈ l₁, nh.joinedAt < x.joinedAt) ∧
        (∀ x ∈ room.members.filter (fun m => m.userId != userId),
          nh.joinedAt ≤ x.joinedAt) ∧
        r'.hostId = nh.userId ∧
        nh.userId ∈ r'.members.map (fun m => m.userId) ∧
        (∀ m ∈ r'.members, m.userId = nh.userId → m.role = Role.host)) := by
  constructor
  · intro hemp
    exact ⟨_, leaveRoom_host_no_others room userId hact hmem hhost hemp, rfl⟩
  · intro hne
    have hsne : sortByKey (fun m => (m.joinedAt : Int))
        (room.members.filter (fun m => m.userId != userId)) ≠ [] := by
      rwa [Ne, sortByKey_eq_nil_iff]
    obtain ⟨nh, hhead⟩ : ∃ nh, (sortByKey (fun m => (m.joinedAt : Int))
        (room.members.filter (fun m => m.userId != userId))).head? = some nh := by
      cases hsort : sortByKey (fun m => (m.joinedAt : Int))
          (room.members.filter (fun m => m.userId != userId)) with
      | nil => exact absurd hsort hsne
      | cons a as => exact ⟨a, rfl⟩
    have htrans := leaveRoom_host_transfer room userId nh hact hmem hhost hne hhead
    obtain ⟨l₁, l₂, hdec, hstrict, hmin⟩ := sortByKey_head_leftmost_min _ _ _ hhead
    have hnh_mem : nh ∈ room.members.filter (fun m => m.userId != userId) := by
      rw [hdec]
      exact List.mem_append.mpr (Or.inr (List.mem_cons_self _ _))
    have hnh1 : nh ∈ room.members := (List.mem_filter.mp hnh_mem).1
    have hnh2 : nh.userId ≠ userId := by
      have h2 := (List.mem_filter.mp hnh_mem).2
      simpa [bne_iff_ne] using h2
    refine ⟨_, nh, l₁, l₂, htrans, hdec, ?_, ?_, rfl, ?_, ?_⟩
    · intro x hx
      exact_mod_cast hstrict x hx
    · intro x hx
      exact_mod_cast hmin x hx
    · have hmap : (updateFirst (fun m => m.userId == nh.userId)
          (fun m => { m with role := Role.host }) room.members).map
            (fun m => m.userId) =
          room.members.map (fun m => m.userId) :=
        updateFirst_map_eq (fun m => m.userId == nh.userId)
          (fun m => { m with role := Role.host })
          (fun m => m.userId) (fun a => rfl) room.members
      have hin : nh.userId ∈ (updateFirst (fun m => m.userId == nh.userId)
          (fun m => { m with role := Role.host }) room.members).map
            (fun m => m.userId) := by
        rw [hmap]
        exact List.mem_map_of_mem _ hnh1
      obtain ⟨m, hm_mem, hm_id⟩ := List.mem_map.mp hin
      refine List.mem_map.mpr ⟨m, ?_, hm_id⟩
      simp only [Room.removeMember]
      refine List.mem_filter.mpr ⟨hm_mem, ?_⟩
      simp [bne_iff_ne, hm_id, hnh2]
    · intro m hm hmid
      have hm' : m ∈ updateFirst (fun m => m.userId == nh.userId)
          (fun m => { m with role := Role.host }) room.members := by
        simp only [Room.removeMember] at hm
        exact (List.mem_filter.mp hm).1
      exact updateFirst_host_role room.members nh.userId huniq m hm' hmid

/-- Witness for C4 on c4Room: the host leaves while members joined at 5
and 3 remain. -/
theorem c4_host_leave_promotes_earliest_witness :
    c4Room.isActive = true ∧
    c4Room.hostId = 0 ∧
    c4Room.members.any (fun m => m.userId == 0) = true ∧
    c4Room.members.Pairwise (fun m₁ m₂ => m₁.userId ≠ m₂.userId) ∧
    (c4Room.members.filter (fun m => m.userId != 0) ≠ [] →
      ∃ r' nh l₁ l₂,
        leaveRoom (some c4Room) 0 = .ok r' true ∧
        c4Room.members.filter (fun m => m.userId != 0) = l₁ ++ nh :: l₂ ∧
        (∀ x ∈ l₁, nh.joinedAt < x.joinedAt) ∧
        (∀ x ∈ c4Room.members.filter (fun m => m.userId != 0),
          nh.joinedAt ≤ x.joinedAt) ∧
        r'.hostId = nh.userId ∧
        nh.userId ∈ r'.members.map (fun m => m.userId) ∧
        (∀ m ∈ r'.members, m.userId = nh.userId → m.role = Role.host)) :=
  ⟨rfl, rfl, by decide, by decide,
    (c4_host_leave_promotes_earliest c4Room 0 rfl rfl (by decide) (by decide)).2⟩

/-- On a non-empty queue and an in-range random draw, getNextSong always
returns an item. -/
theorem getNextSongPick_isSome (room : Room) (rand : ℚ) (h0 : 0 ≤ rand)
    (h1 : rand < 1) (hq : room.queue ≠ []) :
    ∃ chosen, (room.getNextSongPick rand).1 = some chosen := by
  by_cases hs : room.settings.shuffleMode = true
  · rw [getNextSongPick_shuffle room rand hq hs]
    have hn : 0 < room.queue.length := List.length_pos.mpr hq
    have hlt := shuffleIndex_lt rand room.queue.length h0 h1 hn
    exact ⟨_, List.get?_eq_get hlt⟩
  · rw [getNextSongPick_noShuffle room rand hq (by simpa using hs)]
    simp only
    cases hsort : sortByKey (fun item => item.order) room.queue with
    | nil => exact absurd ((sortByKey_eq_nil_iff _ _).mp hsort) hq
    | cons a as => exact ⟨a, rfl⟩

/-- C3 (amended): a next event from the host or a moderator on an active
room — when the queue is empty only songId (to null), isPlaying (to
false) and currentTime (to 0) are written; startedAt and playedBy retain
their previous values, so CurrentTrack is NOT cleared to its all-null
form, and the broadcast is the trackless "Queue is empty" stop notice;
when the queue is non-empty the chosen item is the minimal-order element
if shuffleMode is off, and if shuffleMode is on it is the element at
index floor(rand·n), an index that equals i exactly when the draw lies in
the length-1/n interval [i/n, (i+1)/n) — a uniform choice among all
queued items for a uniform draw; the chosen item becomes the current
track started now at position 0, playing, played by the invoker, and
every queue entry with its songId is removed. -/
theorem c3_next_song_selection (songs : List Nat) (userId roomId now : Nat)
    (room : Room) (mem : RMember) (rand : ℚ)
    (hact : room.isActive = true)
    (hmem : room.members.find? (fun m => m.userId == userId) = some mem)
    (hcan : mem.role = Role.host ∨ mem.role = Role.moderator)
    (h0 : 0 ≤ rand) (h1 : rand < 1)
    (hsongs : ∀ item ∈ room.queue, item.songId ∈ songs) :
    (room.queue = [] →
      ∃ r', (handleMusicControl songs userId (some roomId) roomId (some room)
          .next now rand).room? = some r' ∧
        r'.currentTrack.songId = none ∧
        r'.currentTrack.isPlaying = false ∧
        r'.currentTrack.currentTime = 0 ∧
        r'.currentTrack.startedAt = room.currentTrack.startedAt ∧
        r'.currentTrack.playedBy = room.currentTrack.playedBy ∧
        (handleMusicControl songs userId (some roomId) roomId (some room)
          .next now rand).toOthers =
          [.musicUpdate ({ action := some "stop", message := some "Queue is empty",
                           timestamp := some now } : BroadcastData)]) ∧
    (room.queue ≠ [] →
      ∃ chosen r',
        (room.getNextSongPick rand).1 = some chosen ∧
        chosen ∈ room.queue ∧
        (room.settings.shuffleMode = false →
          ∀ x ∈ room.queue, chosen.order ≤ x.order) ∧
        (room.settings.shuffleMode = true →
          room.queue.get? (shuffleIndex rand room.queue.length) = some chosen ∧
          ∀ i : Nat, i < room.queue.length →
            (shuffleIndex rand room.queue.length = i ↔
              ((i : ℚ) / room.queue.length ≤ rand ∧
               rand < ((i : ℚ) + 1) / room.queue.length))) ∧
        (handleMusicControl songs userId (some roomId) roomId (some room)
          .next now rand).room? = some r' ∧
        r'.currentTrack = ⟨some chosen.songId, some now, 0, true, some userId⟩ ∧
        (∀ item ∈ r'.queue, item.songId ≠ chosen.songId)) := by
  have hauth := handleMusicControl_authorized songs userId roomId now room mem
    .next rand hact hmem
    (by rcases hcan with h | h
        · exact Or.inl h
        · exact Or.inr (Or.inl h))
  constructor
  · intro hq
    rw [hauth]
    simp only [musicSwitch]
    have hpick : (room.getNextSongPick rand).1 = none := by
      rw [getNextSongPick_nil room rand hq]
    rw [hpick]
    exact ⟨_, rfl, rfl, rfl, rfl, rfl, rfl, rfl⟩
  · intro hq
    obtain ⟨chosen, hpick⟩ := getNextSongPick_isSome room rand h0 h1 hq
    have hcmem : chosen ∈ room.queue := getNextSongPick_mem room rand chosen hpick
    rw [hauth]
    simp only [musicSwitch]
    rw [hpick]
    simp only []
    rw [if_neg (not_not_intro (hsongs chosen hcmem))]
    refine ⟨chosen, _, rfl, hcmem, ?_, ?_, rfl, rfl, ?_⟩
    · intro hs
      rw [getNextSongPick_noShuffle room rand hq hs] at hpick
      simp only at hpick
      obtain ⟨l₁, l₂, hdec, hstrict, hmin⟩ := sortByKey_head_leftmost_min _ _ _ hpick
      exact hmin
    · intro hs
      rw [getNextSongPick_shuffle room rand hq hs] at hpick
      simp only at hpick
      refine ⟨hpick, ?_⟩
      intro i hi
      exact shuffleIndex_eq_iff rand room.queue.length i h0 (List.length_pos.mpr hq)
    · intro item hitem
      simp only [List.mem_filter, bne_iff_ne] at hitem
      exact hitem.2

/-- Witness for C3: a next event on the empty queue of c3Room clears the
track and broadcasts the trackless stop notice. -/
theorem c3_next_song_selection_witness :
    c3Room.isActive = true ∧
    (0:ℚ) ≤ 0 ∧ (0:ℚ) < 1 ∧
    (∀ item ∈ c3Room.queue, item.songId ∈ ([] : List Nat)) ∧
    (∃ r', (handleMusicControl [] 0 (some 1) 1 (some c3Room) .next 9 0).room? =
        some r' ∧
      r'.currentTrack.songId = none ∧
      r'.currentTrack.isPlaying = false ∧
      r'.currentTrack.currentTime = 0 ∧
      r'.currentTrack.startedAt = c3Room.currentTrack.startedAt ∧
      r'.currentTrack.playedBy = c3Room.currentTrack.playedBy ∧
      (handleMusicControl [] 0 (some 1) 1 (some c3Room) .next 9 0).toOthers =
        [.musicUpdate ({ action := some "stop", message := some "Queue is empty",
                         timestamp := some 9 } : BroadcastData)]) :=
  ⟨rfl, by norm_num, by norm_num, by decide,
    (c3_next_song_selection [] 0 1 9 c3Room ⟨0, 0, Role.host, true⟩ 0
      rfl (by decide) (Or.inl rfl) (by norm_num) (by norm_num) (by decide)).1 rfl⟩

/-- C3 counterexample: in c3BadRoom — empty queue, a playing track with
startedAt and playedBy populated — the host's next event writes only
songId, isPlaying and currentTime; startedAt stays 3 and playedBy stays 0,
so the resulting CurrentTrack is not the null form the claim demands. -/
theorem c3_next_song_selection_counterexample :
    c3BadRoom.queue = [] ∧
    (handleMusicControl [5] 0 (some 1) 1 (some c3BadRoom) .next 9 0).room? =
      some { c3BadRoom with
        currentTrack := { songId := none, startedAt := some 3, currentTime := 0,
                          isPlaying := false, playedBy := some 0 } } :=
  ⟨rfl, rfl⟩

/-- C1 counterexample: c1Room is reachable — create a room, then the host
sends a play control event with no songId (resume) while stopped — and in
it songId is null while isPlaying is true, refuting the claimed
biconditional and in particular the clause that a resume never produces
songId null with isPlaying true. -/
theorem c1_invariant_counterexample :
    Reachable [] c1Room ∧
    c1Room.currentTrack.songId = none ∧
    c1Room.currentTrack.isPlaying = true := by
  refine ⟨?_, rfl, rfl⟩
  have h0 : Reachable [] (createRoom 0 0 false none 50 {}) :=
    Reachable.created 0 0 false none 50 {} (by decide)
  exact Reachable.control (createRoom 0 0 false none 50 {}) c1Room 0 1 7
    (.play none 5) 0 h0 (by norm_num) (by norm_num) (by decide)

/-- C1 (amended): the biconditional songId = null iff isPlaying = false is
not an invariant — a resume play sets isPlaying true while leaving songId
whatever it was (null included) — but each operation is individually
deterministic about the pair: every accepted play ends with isPlaying
true and songId unchanged when no songId is given, and next on an empty
queue ends with songId null and isPlaying false together. -/
theorem c1_play_resume_and_stop_fields (songs : List Nat) (userId roomId now : Nat)
    (room : Room) (mem : RMember) (ct : Int) (rand : ℚ)
    (hact : room.isActive = true)
    (hmem : room.members.find? (fun m => m.userId == userId) = some mem)
    (hcan : mem.role = Role.host ∨ mem.role = Role.moderator) :
    (∃ r', (handleMusicControl songs userId (some roomId) roomId (some room)
        (.play none ct) now rand).room? = some r' ∧
      r'.currentTrack.isPlaying = true ∧
      r'.currentTrack.songId = room.currentTrack.songId) ∧
    (room.queue = [] →
      ∃ r', (handleMusicControl songs userId (some roomId) roomId (some room)
        .next now rand).room? = some r' ∧
      r'.currentTrack.songId = none ∧
      r'.currentTrack.isPlaying = false) := by
  constructor
  · have hauth := handleMusicControl_authorized songs userId roomId now room mem
      (.play none ct) rand hact hmem
      (by rcases hcan with h | h
          · exact Or.inl h
          · exact Or.inr (Or.inl h))
    rw [hauth]
    exact ⟨_, rfl, rfl, rfl⟩
  · intro hq
    have hauth := handleMusicControl_authorized songs userId roomId now room mem
      .next rand hact hmem
      (by rcases hcan with h | h
          · exact Or.inl h
          · exact Or.inr (Or.inl h))
    rw [hauth]
    simp only [musicSwitch]
    rw [show (room.getNextSongPick rand).1 = none from
      by rw [getNextSongPick_nil room rand hq]]
    exact ⟨_, rfl, rfl, rfl⟩

/-- Witness for C1 (amended) on c1WRoom. -/
theorem c1_play_resume_and_stop_fields_witness :
    c1WRoom.isActive = true ∧
    ((∃ r', (handleMusicControl [] 0 (some 1) 1 (some c1WRoom)
        (.play none 5) 7 0).room? = some r' ∧
      r'.currentTrack.isPlaying = true ∧
      r'.currentTrack.songId = c1WRoom.currentTrack.songId) ∧
    (c1WRoom.queue = [] →
      ∃ r', (handleMusicControl [] 0 (some 1) 1 (some c1WRoom)
        .next 7 0).room? = some r' ∧
      r'.currentTrack.songId = none ∧
      r'.currentTrack.isPlaying = false)) :=
  ⟨rfl, c1_play_resume_and_stop_fields [] 0 1 7 c1WRoom ⟨0, 0, Role.host, true⟩ 5 0
    rfl (by decide) (Or.inl rfl)⟩

end StaySync
